import Mathlib

/-!
Shallow embedding of the edda task tracker core (src/core/task.rs, src/sync.rs)
and proofs about its task state machine, task engine validation, offline-first
sync manager, offline queue, local cache and conflict resolver.

Modelling conventions:
- chrono timestamps are modelled as natural numbers; every function that calls
  the system clock receives the current instant as an explicit `now` argument;
- `HashSet<String>` tag sets are modelled as duplicate-free lists of strings,
  `HashSet` membership and removal become list membership and `List.erase`;
- `i64` identifiers are modelled as `Int`, `u64` version counters as `Nat`;
- Uuid values are modelled as opaque natural numbers (their random generation
  is outside the model and no verified property inspects them);
- fallible Rust functions returning `Result` become `Except`; methods that
  mutate `&mut self` and return `Result<(), E>` become state-passing functions
  returning `Except E Unit × Task`, the task component being the state after
  the call (unchanged when the call errors, exactly as in the source which
  returns before writing any field);
- the SQLite task store is modelled as a finite map from ids to tasks plus a
  fresh-id counter, with the row semantics of src/storage/task_storage.rs
  (UPDATE leaves `entry_date` and `uuid` of the stored row untouched, DELETE
  reports whether a row was removed).
-/

namespace Edda

/-- TaskStatus from src/core/task.rs (Pending, Completed, Deleted, Waiting). -/
inductive TaskStatus where
  | pending
  | completed
  | deleted
  | waiting
deriving DecidableEq, Repr

/-- Display impl for TaskStatus from src/core/task.rs (lowercase names). -/
def TaskStatus.display : TaskStatus → String
  | .pending => "pending"
  | .completed => "completed"
  | .deleted => "deleted"
  | .waiting => "waiting"

/-- Priority from src/core/task.rs: High, Medium, Low or Number(u8 in 0..=9). -/
inductive Priority where
  | high
  | medium
  | low
  | number (n : Nat)
deriving DecidableEq, Repr

/-- TaskError from src/core/error.rs (the variants reachable in this model). -/
inductive TaskError where
  | notFound (id : String)
  | invalidStatusTransition (fromS toS : String)
  | validation (message : String)
  | alreadyExists (id : String)
  | storage (message : String)
deriving DecidableEq, Repr

/-- EddaError from src/core/error.rs, restricted to the wrappers reachable in
the modelled code paths. -/
inductive EddaError where
  | task (e : TaskError)
  | sync (message : String)
deriving DecidableEq, Repr

/-- Annotation (entry timestamp + text) from src/core/task.rs. -/
structure Annot where
  entry : Nat
  description : String
deriving DecidableEq, Repr

/-- Task from src/core/task.rs with all its fields. -/
structure Task where
  id : Option Int
  uuid : Nat
  description : String
  status : TaskStatus
  priority : Option Priority
  project : Option String
  due_date : Option Nat
  scheduled_date : Option Nat
  start_date : Option Nat
  end_date : Option Nat
  entry_date : Nat
  modified_date : Nat
  tags : List String
  annotations : List Annot
  parent_uuid : Option Nat
  depends : List Nat
  recurrence : Option String
  effort : Option Nat
  effort_spent : Option Nat
deriving DecidableEq, Repr

/-- Task::remove_tag: `HashSet::remove` reports whether the tag was present;
the modified timestamp is refreshed only when it was. -/
def Task.remove_tag (t : Task) (tag : String) (now : Nat) : Bool × Task :=
  let removed := t.tags.contains tag
  let t := { t with tags := t.tags.erase tag }
  if removed then (true, { t with modified_date := now }) else (false, t)

/-- Task::complete: fails when the task is already Completed, otherwise sets
status, end date and modified date. -/
def Task.complete (t : Task) (now : Nat) : Except TaskError Unit × Task :=
  if t.status = TaskStatus.completed then
    (Except.error (TaskError.invalidStatusTransition t.status.display ("completed")), t)
  else
    (Except.ok (),
      { t with status := TaskStatus.completed, end_date := some now, modified_date := now })

/-- Task::delete: fails when the task is already Deleted, otherwise sets
status and modified date. -/
def Task.delete (t : Task) (now : Nat) : Except TaskError Unit × Task :=
  if t.status = TaskStatus.deleted then
    (Except.error (TaskError.invalidStatusTransition t.status.display ("deleted")), t)
  else
    (Except.ok (), { t with status := TaskStatus.deleted, modified_date := now })

/-- TaskEngine::is_valid_status_transition from src/core/task.rs, with the
match arms in source order. -/
def is_valid_status_transition (fromS toS : TaskStatus) : Bool :=
  match fromS, toS with
  | _, .deleted => true
  | .deleted, _ => false
  | .pending, _ => true
  | .completed, .pending | .completed, .waiting => true
  | .waiting, .pending | .waiting, .completed => true
  | _, _ => false

/-- Error message built by TaskEngine::update_task for an illegal transition. -/
def transition_message (fromS toS : TaskStatus) : String :=
  "Invalid status transition from " ++ fromS.display ++ " to " ++ toS.display

/-- Task store modelled as a map from row id to task plus a fresh-id counter
(the shallow embedding of the SqliteTaskStorage row semantics). -/
structure Store where
  tasks : Int → Option Task
  next_id : Int

/-- SqliteTaskStorage::create_task: assigns a fresh id, stamps entry and
modified dates with the current instant and inserts the row. -/
def Store.create_task (s : Store) (t : Task) (now : Nat) : Store × Task :=
  let t := { t with id := some s.next_id, entry_date := now, modified_date := now }
  ({ tasks := fun k => if k = s.next_id then some t else s.tasks k,
     next_id := s.next_id + 1 }, t)

/-- SqliteTaskStorage::update_task: requires an id, stamps the modified date,
then runs UPDATE ... WHERE id = ? (which rewrites the row when it exists but
leaves the stored entry date and uuid columns untouched) and returns the
stamped task without re-fetching. -/
def Store.update_task (s : Store) (t : Task) (now : Nat) : Except EddaError (Store × Task) :=
  match t.id with
  | none => Except.error (EddaError.task (TaskError.validation ("Task must have an ID to update")))
  | some i =>
    let t := { t with modified_date := now }
    Except.ok
      ({ s with tasks := fun k =>
          if k = i then
            (s.tasks i).map (fun old => { t with entry_date := old.entry_date, uuid := old.uuid })
          else s.tasks k }, t)

/-- SqliteTaskStorage::delete_task: DELETE ... WHERE id = ?, reporting whether
a row was affected. -/
def Store.delete_task (s : Store) (i : Int) : Store × Bool :=
  let present := (s.tasks i).isSome
  ({ s with tasks := fun k => if k = i then none else s.tasks k }, present)

/-- Emptiness after trimming, as tested by `description.trim().is_empty()` in
the source: the string is empty or consists of whitespace only. The byte-wise
trim loop itself is not embedded; this is its observable result, stated over
the character list so it evaluates. -/
def blank_description (s : String) : Bool :=
  s.data.all Char.isWhitespace

/-- TaskEngine::update_task from src/core/task.rs: rejects an empty (after
trim) description, re-fetches the stored task by id (`task.id.unwrap_or(0)`),
rejects an invalid status transition against the stored status, stamps the
modified date and persists through the store. -/
def TaskEngine.update_task (s : Store) (t : Task) (now : Nat) :
    Except EddaError (Store × Task) :=
  if blank_description t.description then
    Except.error (EddaError.task (TaskError.validation ("Task description cannot be empty")))
  else
    match s.tasks (t.id.getD 0) with
    | some existing =>
      if is_valid_status_transition existing.status t.status then
        Store.update_task s { t with modified_date := now } now
      else
        Except.error (EddaError.task
          (TaskError.validation (transition_message existing.status t.status)))
    | none => Store.update_task s { t with modified_date := now } now

/-- Document from src/sync.rs; the serde_json metadata value is modelled as a
string-keyed association list, which is all merge_documents inspects. -/
structure Document where
  id : Option Int
  uuid : Nat
  title : String
  content : Option String
  content_type : Option String
  file_path : Option String
  metadata : Option (List (String × String))
  created_at : Nat
  updated_at : Nat
deriving DecidableEq, Repr

/-- SyncOperation from src/sync.rs: one queued mutation with its payload and
enqueue-time timestamp. -/
inductive SyncOperation where
  | createTask (task : Task) (timestamp : Nat)
  | updateTask (task : Task) (timestamp : Nat)
  | deleteTask (task_id : Int) (timestamp : Nat)
  | createDocument (document : Document) (timestamp : Nat)
  | updateDocument (document : Document) (timestamp : Nat)
  | deleteDocument (document_id : Int) (timestamp : Nat)
deriving DecidableEq, Repr

/-- ConflictResolution strategy enum from src/sync.rs. -/
inductive ConflictResolution where
  | localWins
  | remoteWins
  | manual
  | merge
deriving DecidableEq, Repr

/-- SyncStatus from src/sync.rs. -/
inductive SyncStatus where
  | pending
  | inProgress
  | completed
  | failed (error : String)
deriving DecidableEq, Repr

/-- CachedTask from src/sync.rs: task snapshot, last modified instant, sync
status and version counter. -/
structure CachedTask where
  task : Task
  last_modified : Nat
  sync_status : SyncStatus
  version : Nat
deriving DecidableEq, Repr

/-- CachedDocument from src/sync.rs. -/
structure CachedDocument where
  document : Document
  last_modified : Nat
  sync_status : SyncStatus
  version : Nat
deriving DecidableEq, Repr

/-- OfflineQueue::enqueue from src/sync.rs: when the queue has reached
`max_operations` entries the oldest entry (index 0) is removed, then the new
operation is appended. The queue contents are the function result; the
capacity is passed alongside. -/
def OfflineQueue.enqueue (max_operations : Nat) (ops : List SyncOperation)
    (op : SyncOperation) : List SyncOperation :=
  let ops := if max_operations ≤ ops.length then ops.drop 1 else ops
  ops ++ [op]

/-- OfflineQueue::remove_operations from src/sync.rs: sorts the given indices
in descending order and removes each one that is still in bounds. -/
def OfflineQueue.remove_operations (ops : List SyncOperation) (indices : List Nat) :
    List SyncOperation :=
  let sorted := indices.mergeSort (fun a b => decide (b ≤ a))
  sorted.foldl (fun acc i => if i < acc.length then acc.eraseIdx i else acc) ops

/-- LocalCache::cache_task from src/sync.rs: overwrite the entry keyed by
`task.id.unwrap_or(0)` with a fresh CachedTask stamped Pending at the given
version. -/
def LocalCache.cache_task (cache : Int → Option CachedTask) (t : Task)
    (version : Nat) (now : Nat) : Int → Option CachedTask :=
  fun k =>
    if k = t.id.getD 0 then
      some { task := t, last_modified := now, sync_status := SyncStatus.pending,
             version := version }
    else cache k

/-- LocalCache::update_task_sync_status from src/sync.rs: update status and
last-modified of the entry in place when it exists, otherwise do nothing. -/
def LocalCache.update_task_sync_status (cache : Int → Option CachedTask) (task_id : Int)
    (status : SyncStatus) (now : Nat) : Int → Option CachedTask :=
  fun k =>
    if k = task_id then
      (cache task_id).map (fun ct => { ct with sync_status := status, last_modified := now })
    else cache k

/-- ConflictResolver::merge_tasks from src/sync.rs: start from the local task;
adopt the later remote modified date; fold the remote tags into the local tag
set inserting each absent one; append the remote annotations; when both sides
carry a priority and the remote one compares greater, adopt it. -/
def merge_tasks (priority_gt : Priority → Priority → Bool)
    (local_task remote_task : Task) : Task :=
  let merged := local_task
  let merged :=
    if local_task.modified_date < remote_task.modified_date then
      { merged with modified_date := remote_task.modified_date }
    else merged
  let tags := remote_task.tags.foldl
    (fun acc tag => if acc.contains tag then acc else acc ++ [tag]) local_task.tags
  let merged := { merged with tags := tags }
  let merged := { merged with annotations := local_task.annotations ++ remote_task.annotations }
  match local_task.priority, remote_task.priority with
  | some lp, some rp =>
    if priority_gt rp lp then { merged with priority := remote_task.priority } else merged
  | _, _ => merged

/-- ConflictResolver::resolve_task_conflict from src/sync.rs: an explicit
strategy overrides the resolver default; Manual returns the side with the
later modified date, the remote side on a tie. -/
def resolve_task_conflict (priority_gt : Priority → Priority → Bool)
    (default_strategy : ConflictResolution) (local_task remote_task : Task)
    (strategy : Option ConflictResolution) : Task :=
  match strategy.getD default_strategy with
  | .localWins => local_task
  | .remoteWins => remote_task
  | .manual =>
    if remote_task.modified_date < local_task.modified_date then local_task else remote_task
  | .merge => merge_tasks priority_gt local_task remote_task

/-- Priority ordering used by merge_tasks. Modelled from the spec: `Priority`
derives no `PartialOrd` anywhere under src/, yet `merge_tasks` compares two
priorities with `>`, so the ordering relation itself is code of this
repository missing from src/. The spec ranks priorities consistently with the
urgency contributions of src/core/task.rs (High = 10, Medium = 5, Low = 1,
Number(n) = n), and this definition compares by that rank. -/
def priority_rank : Priority → Nat
  | .high => 10
  | .medium => 5
  | .low => 1
  | .number n => n

/-- Strict greater-than on priorities by urgency rank (see `priority_rank`). -/
def priority_gt_spec (a b : Priority) : Bool :=
  decide (priority_rank b < priority_rank a)

/-- SyncManager state from src/sync.rs: bounded offline queue, local cache,
last successful sync instant and the backing task store. The resolver default
strategy plays no role in the modelled entry points. -/
structure SyncManager where
  max_operations : Nat
  queue : List SyncOperation
  cacheTasks : Int → Option CachedTask
  cacheDocuments : Int → Option CachedDocument
  last_sync : Option Nat
  store : Store

/-- SyncManager::create_task: store the task, cache it at version 1, enqueue a
CreateTask operation and return the created task. -/
def SyncManager.create_task (m : SyncManager) (t : Task) (now : Nat) :
    SyncManager × Task :=
  let (store, created) := m.store.create_task t now
  let cache := LocalCache.cache_task m.cacheTasks created 1 now
  let queue := OfflineQueue.enqueue m.max_operations m.queue
    (SyncOperation.createTask created now)
  ({ m with store := store, cacheTasks := cache, queue := queue }, created)

/-- SyncManager::update_task: store the update, cache the result at version 1,
enqueue an UpdateTask operation and return the updated task. -/
def SyncManager.update_task (m : SyncManager) (t : Task) (now : Nat) :
    Except EddaError (SyncManager × Task) :=
  match m.store.update_task t now with
  | Except.error e => Except.error e
  | Except.ok (store, updated) =>
    let cache := LocalCache.cache_task m.cacheTasks updated 1 now
    let queue := OfflineQueue.enqueue m.max_operations m.queue
      (SyncOperation.updateTask updated now)
    Except.ok ({ m with store := store, cacheTasks := cache, queue := queue }, updated)

/-- SyncManager::delete_task: delete the row; when a row was removed, enqueue
a DeleteTask operation. The cache is not touched on either path. -/
def SyncManager.delete_task (m : SyncManager) (task_id : Int) (now : Nat) :
    SyncManager × Bool :=
  let (store, deleted) := m.store.delete_task task_id
  if deleted then
    ({ m with
        store := store,
        queue := OfflineQueue.enqueue m.max_operations m.queue
          (SyncOperation.deleteTask task_id now) }, true)
  else
    ({ m with store := store }, false)

/-- Cache effect of one queued operation inside SyncManager::sync: task
operations mark the entry of the task they name Completed; document
operations are left unhandled by the source and do nothing. -/
def syncStep (now : Nat) (cache : Int → Option CachedTask) (op : SyncOperation) :
    Int → Option CachedTask :=
  match op with
  | SyncOperation.createTask t _ =>
    LocalCache.update_task_sync_status cache (t.id.getD 0) SyncStatus.completed now
  | SyncOperation.updateTask t _ =>
    LocalCache.update_task_sync_status cache (t.id.getD 0) SyncStatus.completed now
  | SyncOperation.deleteTask i _ =>
    LocalCache.update_task_sync_status cache i SyncStatus.completed now
  | _ => cache

/-- SyncManager::sync from src/sync.rs: snapshot the pending operations;
return unchanged when there are none; otherwise stamp the last-sync instant,
mark the cache entry named by every task operation Completed (no provider is
consulted) and remove every snapshot index from the queue. -/
def SyncManager.sync (m : SyncManager) (now : Nat) : SyncManager :=
  let operations := m.queue
  if operations.isEmpty then m
  else
    let m := { m with last_sync := some now }
    let cache := operations.foldl (syncStep now) m.cacheTasks
    let queue := OfflineQueue.remove_operations m.queue (List.range operations.length)
    { m with cacheTasks := cache, queue := queue }

/-- SyncManager::has_pending_operations: the queue is nonempty. -/
def SyncManager.has_pending_operations (m : SyncManager) : Bool :=
  !m.queue.isEmpty

/-- Task id named by a sync operation, as used by the sync loop
(`task.id.unwrap_or(0)` for payload-carrying task operations). Document
operations name no task and are mapped to 0; they are excluded by the
task-operation predicate wherever this matters. -/
def SyncOperation.namedTaskId : SyncOperation → Int
  | .createTask t _ => t.id.getD 0
  | .updateTask t _ => t.id.getD 0
  | .deleteTask i _ => i
  | _ => 0

/-- Predicate selecting the task operations (create, update, delete of a
task). -/
def SyncOperation.isTaskOp : SyncOperation → Bool
  | .createTask _ _ => true
  | .updateTask _ _ => true
  | .deleteTask _ _ => true
  | _ => false

/-- Transition table written from the words of the specification (section 4.1):
Pending to Completed, Waiting or Deleted; Waiting to Pending, Completed or
Deleted; Completed to Pending, Waiting or Deleted; nothing out of Deleted.
Stated separately from `is_valid_status_transition` so the code table can be
compared with the claimed one. -/
def claimedTransitionTable (fromS toS : TaskStatus) : Bool :=
  match fromS, toS with
  | .pending, .completed | .pending, .waiting | .pending, .deleted => true
  | .waiting, .pending | .waiting, .completed | .waiting, .deleted => true
  | .completed, .pending | .completed, .waiting | .completed, .deleted => true
  | _, _ => false

/-- Concrete task used by witnesses and counterexamples. -/
def sampleTask : Task :=
  { id := some 1, uuid := 11, description := "Buy milk", status := TaskStatus.pending,
    priority := none, project := none, due_date := none, scheduled_date := none,
    start_date := none, end_date := none, entry_date := 0, modified_date := 0,
    tags := ["a", "b"], annotations := [{ entry := 0, description := "x" }],
    parent_uuid := none, depends := [], recurrence := none, effort := none,
    effort_spent := none }

/-- Concrete store holding one task (id 1) in status Deleted. -/
def storeWithDeleted : Store :=
  { tasks := fun k => if k = 1 then some { sampleTask with status := TaskStatus.deleted } else none,
    next_id := 2 }

/-- Concrete store holding one task (id 1) in status Completed. -/
def storeWithCompleted : Store :=
  { tasks := fun k =>
      if k = 1 then some { sampleTask with status := TaskStatus.completed } else none,
    next_id := 2 }

/-- Concrete sync manager over a store holding task 1, with an empty queue,
an empty cache and room in the queue. -/
def syncM0 : SyncManager :=
  { max_operations := 10, queue := [], cacheTasks := fun _ => none,
    cacheDocuments := fun _ => none, last_sync := none,
    store := { tasks := fun k => if k = 1 then some sampleTask else none, next_id := 2 } }

/-- Stale cached entry used to exhibit the untouched cache after delete. -/
def staleEntry : CachedTask :=
  { task := sampleTask, last_modified := 0,
    sync_status := SyncStatus.failed ("network unreachable"), version := 5 }

/-- Concrete sync manager whose cache holds a stale entry for task 1. -/
def syncMStale : SyncManager :=
  { max_operations := 10, queue := [],
    cacheTasks := fun k => if k = 1 then some staleEntry else none,
    cacheDocuments := fun _ => none, last_sync := none,
    store := { tasks := fun k => if k = 1 then some sampleTask else none, next_id := 2 } }

/-- Result of the concrete update used by the C8 witness. -/
def updRes : SyncManager × Task :=
  match SyncManager.update_task syncM0 sampleTask 5 with
  | Except.ok p => p
  | Except.error _ => (syncM0, sampleTask)

/-- Runner extracting the post-state of an update, for the C8 counterexample. -/
def runUpdate (m : SyncManager) (t : Task) (now : Nat) : SyncManager :=
  match m.update_task t now with
  | Except.ok (m', _) => m'
  | Except.error _ => m

/-- Concrete sync manager with one pending CreateTask operation and a Pending
cache entry for the task it names. -/
def syncMPending : SyncManager :=
  { max_operations := 10, queue := [SyncOperation.createTask sampleTask 3],
    cacheTasks := fun k =>
      if k = 1 then
        some { task := sampleTask, last_modified := 3,
               sync_status := SyncStatus.pending, version := 1 }
      else none,
    cacheDocuments := fun _ => none, last_sync := none,
    store := { tasks := fun k => if k = 1 then some sampleTask else none, next_id := 2 } }

/-- Comparison of the code transition table with the claimed one, over all
sixteen status pairs: they agree on every pair of distinct statuses, and on
equal pairs the code accepts exactly Pending and Deleted. -/
theorem code_table_vs_claimed_table (a b : TaskStatus) :
    (a ≠ b → is_valid_status_transition a b = claimedTransitionTable a b) ∧
    (is_valid_status_transition a a = true ↔ (a = TaskStatus.pending ∨ a = TaskStatus.deleted)) := by
  cases a <;> cases b <;> simp [is_valid_status_transition, claimedTransitionTable]

/-- Membership in the tag-merging fold of merge_tasks is membership in the
accumulator or in the folded list. -/
theorem mem_foldl_insert_tag (remote : List String) :
    ∀ (acc : List String) (x : String),
      (x ∈ remote.foldl (fun acc tag => if acc.contains tag then acc else acc ++ [tag]) acc ↔
        x ∈ acc ∨ x ∈ remote) := by
  induction remote with
  | nil => intro acc x; simp
  | cons t ts ih =>
    intro acc x
    simp only [List.foldl_cons]
    rw [ih]
    by_cases h : acc.contains t
    · have ht : t ∈ acc := by simpa using h
      simp only [if_pos h, List.mem_cons]
      constructor
      · rintro (hx | hx)
        · exact Or.inl hx
        · exact Or.inr (Or.inr hx)
      · rintro (hx | hx | hx)
        · exact Or.inl hx
        · exact Or.inl (hx ▸ ht)
        · exact Or.inr hx
    · simp only [if_neg h, List.mem_append, List.mem_singleton, List.mem_cons, or_assoc,
        List.not_mem_nil, false_or, or_false]

/-- C2 (amended): re-applying the same terminal action fails with an
InvalidStatusTransition error naming the attempted from/to pair and leaves
the task unchanged: Task::complete on a Completed task and Task::delete on a
Deleted task both fail this way. Task::complete on a Deleted task, however,
succeeds and moves the task to Completed, so leaving Deleted is possible
through complete. -/
theorem terminal_reapplication_fails (t : Task) (now : Nat) :
    (t.status = TaskStatus.completed →
      Task.complete t now =
        (Except.error (TaskError.invalidStatusTransition ("completed") ("completed")), t)) ∧
    (t.status = TaskStatus.deleted →
      Task.delete t now =
        (Except.error (TaskError.invalidStatusTransition ("deleted") ("deleted")), t)) ∧
    (t.status = TaskStatus.deleted →
      Task.complete t now =
        (Except.ok (),
          { t with status := TaskStatus.completed, end_date := some now,
                   modified_date := now })) := by
  refine ⟨fun h => ?_, fun h => ?_, fun h => ?_⟩
  · simp [Task.complete, h, TaskStatus.display]
  · simp [Task.delete, h, TaskStatus.display]
  · simp [Task.complete, h]

/-- C2 witness: the three hypotheses discharged on concrete tasks. -/
theorem terminal_reapplication_fails_witness :
    Task.complete { sampleTask with status := TaskStatus.completed } 7 =
      (Except.error (TaskError.invalidStatusTransition ("completed") ("completed")),
        { sampleTask with status := TaskStatus.completed }) ∧
    Task.delete { sampleTask with status := TaskStatus.deleted } 7 =
      (Except.error (TaskError.invalidStatusTransition ("deleted") ("deleted")),
        { sampleTask with status := TaskStatus.deleted }) :=
  ⟨(terminal_reapplication_fails { sampleTask with status := TaskStatus.completed } 7).1 rfl,
   (terminal_reapplication_fails { sampleTask with status := TaskStatus.deleted } 7).2.1 rfl⟩

/-- C2 counterexample: calling complete on a task whose status is Deleted does
not fail; it succeeds and sets the status to Completed. -/
theorem complete_on_deleted_succeeds :
    (Task.complete { sampleTask with status := TaskStatus.deleted } 7).1 = Except.ok () ∧
    (Task.complete { sampleTask with status := TaskStatus.deleted } 7).2.status =
      TaskStatus.completed :=
  ⟨rfl, rfl⟩

/-- C7: under the Merge strategy the resolved tag set is the union of the two
tag sets and the resolved annotation list is the local list followed by the
remote list, with no de-duplication. -/
theorem merge_tags_union_annotations_append (pg : Priority → Priority → Bool)
    (local_task remote_task : Task) :
    ((merge_tasks pg local_task remote_task).annotations =
      local_task.annotations ++ remote_task.annotations) ∧
    (∀ x, x ∈ (merge_tasks pg local_task remote_task).tags ↔
      x ∈ local_task.tags ∨ x ∈ remote_task.tags) := by
  have htags : (merge_tasks pg local_task remote_task).tags =
      remote_task.tags.foldl
        (fun acc tag => if acc.contains tag then acc else acc ++ [tag]) local_task.tags := by
    unfold merge_tasks
    cases local_task.priority <;> cases remote_task.priority <;>
      simp only [] <;> split <;> rfl
  have hann : (merge_tasks pg local_task remote_task).annotations =
      local_task.annotations ++ remote_task.annotations := by
    unfold merge_tasks
    cases local_task.priority <;> cases remote_task.priority <;>
      simp only [] <;> split <;> rfl
  exact ⟨hann, fun x => by rw [htags]; exact mem_foldl_insert_tag remote_task.tags local_task.tags x⟩

/-- C9: when the local and remote modified timestamps are exactly equal,
resolve_task_conflict with the Manual strategy returns the remote task. -/
theorem manual_tie_prefers_remote (pg : Priority → Priority → Bool)
    (default_strategy : ConflictResolution) (local_task remote_task : Task)
    (h : local_task.modified_date = remote_task.modified_date) :
    resolve_task_conflict pg default_strategy local_task remote_task
      (some ConflictResolution.manual) = remote_task := by
  simp [resolve_task_conflict, h]

/-- C9 witness: a concrete tie resolved in favour of the remote task. -/
theorem manual_tie_prefers_remote_witness :
    resolve_task_conflict priority_gt_spec ConflictResolution.localWins sampleTask
      { sampleTask with description := "remote" } (some ConflictResolution.manual) =
      { sampleTask with description := "remote" } :=
  manual_tie_prefers_remote priority_gt_spec ConflictResolution.localWins sampleTask
    { sampleTask with description := "remote" } rfl

/-- C10: Task::remove_tag on an absent tag returns false and leaves the task
entirely unchanged, including its modified date; on a present tag it returns
true, removes exactly that tag (the tag set being duplicate-free by
construction), stamps the modified date and leaves every other field
unchanged. -/
theorem remove_tag_frame (t : Task) (tag : String) (now : Nat) (hnd : t.tags.Nodup) :
    (tag ∉ t.tags → Task.remove_tag t tag now = (false, t)) ∧
    (tag ∈ t.tags →
      Task.remove_tag t tag now =
        (true, { t with tags := t.tags.erase tag, modified_date := now }) ∧
      ∀ x, x ∈ t.tags.erase tag ↔ (x ∈ t.tags ∧ x ≠ tag)) := by
  constructor
  · intro hmem
    simp [Task.remove_tag, List.erase_of_not_mem hmem, hmem]
  · intro hmem
    refine ⟨by simp [Task.remove_tag, hmem], fun x => ?_⟩
    rw [hnd.mem_erase_iff]
    exact ⟨fun ⟨h1, h2⟩ => ⟨h2, h1⟩, fun ⟨h1, h2⟩ => ⟨h2, h1⟩⟩

/-- C10 witness: both branches exercised on a concrete task with tags a, b. -/
theorem remove_tag_frame_witness :
    Task.remove_tag sampleTask "c" 9 = (false, sampleTask) ∧
    Task.remove_tag sampleTask "a" 9 =
      (true, { sampleTask with tags := ["b"], modified_date := 9 }) :=
  ⟨(remove_tag_frame sampleTask "c" 9 (by decide)).1 (by decide),
   ((remove_tag_frame sampleTask "a" 9 (by decide)).2 (by decide)).1⟩

/-- C1 (amended): for a stored task, TaskEngine::update_task with a non-empty
description succeeds, stamping the modified date and persisting the row,
exactly when `is_valid_status_transition` accepts the (stored, requested)
status pair, and otherwise fails with a Validation error whose message names
the illegal transition. On pairs of distinct statuses the code table agrees
with the transition table claimed in the specification; when the requested
status equals the stored status the update succeeds only for Pending and
Deleted and is rejected for Completed and Waiting. -/
theorem update_task_transition_characterization
    (s : Store) (t stored : Task) (i : Int) (now : Nat)
    (hid : t.id = some i)
    (hfound : s.tasks i = some stored)
    (hdesc : ¬ blank_description t.description = true) :
    (is_valid_status_transition stored.status t.status = true →
      ∃ s', TaskEngine.update_task s t now =
          Except.ok (s', { t with modified_date := now }) ∧
        s'.tasks i = some { t with modified_date := now, entry_date := stored.entry_date,
                                   uuid := stored.uuid }) ∧
    (is_valid_status_transition stored.status t.status = false →
      TaskEngine.update_task s t now =
        Except.error (EddaError.task
          (TaskError.validation (transition_message stored.status t.status)))) ∧
    (stored.status ≠ t.status →
      is_valid_status_transition stored.status t.status =
        claimedTransitionTable stored.status t.status) ∧
    (stored.status = t.status →
      (is_valid_status_transition stored.status t.status = true ↔
        (t.status = TaskStatus.pending ∨ t.status = TaskStatus.deleted))) := by
  have hget : t.id.getD 0 = i := by rw [hid]; rfl
  refine ⟨fun hvalid => ?_, fun hinvalid => ?_, fun hne => ?_, fun heq => ?_⟩
  · refine ⟨{ s with tasks := fun k =>
                if k = i then
                  (s.tasks i).map (fun old =>
                    { t with modified_date := now, entry_date := old.entry_date,
                             uuid := old.uuid })
                else s.tasks k }, ?_, ?_⟩
    · simp only [TaskEngine.update_task, if_neg hdesc, hget, hfound, hvalid, if_true,
        Store.update_task, hid, Option.getD_some, Option.map_some]
    · simp [hfound]
  · simp only [TaskEngine.update_task, if_neg hdesc, hget, hfound, hinvalid]
    rfl
  · exact (code_table_vs_claimed_table stored.status t.status).1 hne
  · rw [heq]
    exact (code_table_vs_claimed_table t.status t.status).2


/-- C1 witness: against a stored Deleted task, requesting status Pending is
the Deleted-to-Pending transition, absent from both tables, and update_task
rejects it naming the transition. -/
theorem update_task_transition_characterization_witness :
    TaskEngine.update_task storeWithDeleted sampleTask 5 =
      Except.error (EddaError.task (TaskError.validation
        (transition_message TaskStatus.deleted TaskStatus.pending))) :=
  (update_task_transition_characterization storeWithDeleted sampleTask
    { sampleTask with status := TaskStatus.deleted } 1 5 rfl rfl (by decide)).2.1 (by decide)

/-- C1 counterexample: re-submitting a stored Completed task with the same
Completed status is rejected by TaskEngine::update_task, although the claim
says an update whose requested status equals the stored status succeeds. -/
theorem update_task_equal_status_rejected :
    TaskEngine.update_task storeWithCompleted { sampleTask with status := TaskStatus.completed } 5 =
      Except.error (EddaError.task (TaskError.validation
        ("Invalid status transition from completed to completed"))) := by
  have h := (update_task_transition_characterization storeWithCompleted
    { sampleTask with status := TaskStatus.completed }
    { sampleTask with status := TaskStatus.completed } 1 5 rfl rfl (by decide)).2.1 (by decide)
  exact h

/-- Every queue shorter than the capacity grows by plain append; once the
capacity is reached each enqueue drops the head first: folding enqueue over
any operation list therefore keeps exactly the last `n` elements of the
concatenation. -/
theorem foldl_enqueue_lastN (n : Nat) (hn : 1 ≤ n) :
    ∀ (ops q : List SyncOperation), q.length ≤ n →
      ops.foldl (OfflineQueue.enqueue n) q = (q ++ ops).drop ((q ++ ops).length - n) := by
  intro ops
  induction ops with
  | nil =>
    intro q hq
    simp [Nat.sub_eq_zero_of_le hq]
  | cons op ops ih =>
    intro q hq
    simp only [List.foldl_cons]
    by_cases h : n ≤ q.length
    · have hql : q.length = n := le_antisymm hq h
      have step : OfflineQueue.enqueue n q op = q.drop 1 ++ [op] := by
        simp [OfflineQueue.enqueue, h]
      rw [step, ih (q.drop 1 ++ [op]) (by simp [hql]; omega)]
      have h1 : ((q.drop 1 ++ [op]) ++ ops).length - n = ops.length := by
        simp [hql]; omega
      have h2 : (q ++ op :: ops).length - n = ops.length + 1 := by
        simp [hql]
        try omega
      rw [h1, h2]
      have h3 : (q ++ op :: ops).drop (ops.length + 1) =
          ((q ++ op :: ops).drop 1).drop ops.length := by
        rw [List.drop_drop]; ring_nf
      have h4 : (q ++ op :: ops).drop 1 = q.drop 1 ++ op :: ops :=
        List.drop_append_of_le_length (by omega)
      rw [h3, h4]
      simp [List.append_assoc]
    · have step : OfflineQueue.enqueue n q op = q ++ [op] := by
        simp [OfflineQueue.enqueue, h]
      rw [step, ih (q ++ [op]) (by simp; omega)]
      simp [List.append_assoc]

/-- C5: enqueuing N+1 operations into an empty queue of capacity N at least 1
leaves the queue holding exactly the last N operations in enqueue order: the
first-enqueued operation is the one discarded and the length is N. -/
theorem enqueue_overflow_drops_oldest (n : Nat) (ops : List SyncOperation)
    (hn : 1 ≤ n) (hlen : ops.length = n + 1) :
    ops.foldl (OfflineQueue.enqueue n) [] = ops.drop 1 ∧
    (ops.foldl (OfflineQueue.enqueue n) []).length = n := by
  have h := foldl_enqueue_lastN n hn ops [] (by simp)
  simp only [List.nil_append] at h
  have h1 : ops.length - n = 1 := by omega
  rw [h1] at h
  refine ⟨h, ?_⟩
  rw [h]
  simp [hlen]

/-- C5 witness: capacity 2, three enqueues; the first operation is dropped. -/
theorem enqueue_overflow_drops_oldest_witness :
    [SyncOperation.deleteTask 1 1, SyncOperation.deleteTask 2 2,
      SyncOperation.deleteTask 3 3].foldl (OfflineQueue.enqueue 2) [] =
      [SyncOperation.deleteTask 2 2, SyncOperation.deleteTask 3 3] ∧
    ([SyncOperation.deleteTask 1 1, SyncOperation.deleteTask 2 2,
      SyncOperation.deleteTask 3 3].foldl (OfflineQueue.enqueue 2) []).length = 2 :=
  enqueue_overflow_drops_oldest 2
    [SyncOperation.deleteTask 1 1, SyncOperation.deleteTask 2 2, SyncOperation.deleteTask 3 3]
    (by decide) (by decide)

/-- Priority component of merge_tasks: with both priorities present the remote
one is adopted exactly when it compares greater, otherwise the local priority
stays (also when only the local side has one, or neither); a remote-only
priority is never adopted. -/
theorem merge_tasks_priority (pg : Priority → Priority → Bool) (l r : Task) :
    (merge_tasks pg l r).priority =
      match l.priority, r.priority with
      | some lp, some rp => if pg rp lp then r.priority else l.priority
      | _, _ => l.priority := by
  unfold merge_tasks
  cases hl : l.priority <;> cases hr : r.priority <;>
    simp only [] <;> split <;> (try split) <;> simp [hl, hr]

/-- C6 (amended): when both tasks carry a priority the merged priority is
whichever of the two has the higher urgency rank (the local one on a tie);
when only the local task carries one the merged priority is the local one;
when the local task carries none the merged priority is absent, even if the
remote task carries one. -/
theorem merge_priority_resolution (l r : Task) :
    (∀ lp rp, l.priority = some lp → r.priority = some rp →
      (merge_tasks priority_gt_spec l r).priority =
        some (if priority_gt_spec rp lp then rp else lp) ∧
      priority_rank (if priority_gt_spec rp lp then rp else lp) =
        max (priority_rank lp) (priority_rank rp)) ∧
    (r.priority = none → (merge_tasks priority_gt_spec l r).priority = l.priority) ∧
    (l.priority = none → (merge_tasks priority_gt_spec l r).priority = none) := by
  refine ⟨fun lp rp hl hr => ⟨?_, ?_⟩, fun hr => ?_, fun hl => ?_⟩
  · rw [merge_tasks_priority, hl, hr]
    by_cases hc : priority_gt_spec rp lp <;> simp [hc, hl, hr]
  · by_cases hc : priority_gt_spec rp lp
    · have hlt : priority_rank lp < priority_rank rp := by
        simpa [priority_gt_spec] using hc
      simp [hc, Nat.max_eq_right (Nat.le_of_lt hlt)]
    · have hge : priority_rank rp ≤ priority_rank lp := by
        have h := hc
        simp [priority_gt_spec] at h
        omega
      simp [hc, Nat.max_eq_left hge]
  · rw [merge_tasks_priority, hr]
    try (cases l.priority <;> rfl)
  · rw [merge_tasks_priority, hl]

/-- C6 witness: High (rank 10) beats Number 3; the merged priority is High. -/
theorem merge_priority_resolution_witness :
    (merge_tasks priority_gt_spec { sampleTask with priority := some (Priority.number 3) }
      { sampleTask with priority := some Priority.high }).priority =
      some (if priority_gt_spec Priority.high (Priority.number 3) then Priority.high
            else Priority.number 3) ∧
    priority_rank (if priority_gt_spec Priority.high (Priority.number 3) then Priority.high
                   else Priority.number 3) =
      max (priority_rank (Priority.number 3)) (priority_rank Priority.high) :=
  (merge_priority_resolution { sampleTask with priority := some (Priority.number 3) }
    { sampleTask with priority := some Priority.high }).1 (Priority.number 3) Priority.high
    rfl rfl

/-- C6 counterexample: the local task carries no priority and the remote task
carries High, yet the merged priority is absent; the claim says the present
priority should be adopted. -/
theorem merge_drops_remote_only_priority :
    sampleTask.priority = none ∧
    ({ sampleTask with priority := some Priority.high } : Task).priority = some Priority.high ∧
    (merge_tasks priority_gt_spec sampleTask
      { sampleTask with priority := some Priority.high }).priority = none :=
  ⟨rfl, rfl, rfl⟩

/-- Characterization of a successful SyncManager::update_task call: the
returned task is the input stamped with the current instant, the cache entry
is overwritten at version 1 with status Pending, the operation is enqueued,
and the store row (when present) is rewritten keeping its entry date and
uuid. -/
theorem SyncManager_update_task_ok (m : SyncManager) (t : Task) (now : Nat)
    (m' : SyncManager) (u : Task)
    (h : m.update_task t now = Except.ok (m', u)) :
    u = { t with modified_date := now } ∧
    m'.cacheTasks = LocalCache.cache_task m.cacheTasks u 1 now ∧
    m'.queue = OfflineQueue.enqueue m.max_operations m.queue
      (SyncOperation.updateTask u now) ∧
    ∃ i, t.id = some i ∧
      m'.store.tasks = fun k =>
        if k = i then
          (m.store.tasks i).map (fun old =>
            { u with entry_date := old.entry_date, uuid := old.uuid })
        else m.store.tasks k := by
  cases hti : t.id with
  | none =>
    rw [SyncManager.update_task] at h
    simp [Store.update_task, hti] at h
  | some i =>
    rw [SyncManager.update_task] at h
    simp only [Store.update_task, hti] at h
    simp only [Except.ok.injEq, Prod.mk.injEq] at h
    obtain ⟨hm, hu⟩ := h
    subst hu
    refine ⟨rfl, ?_, ?_, ⟨i, rfl, ?_⟩⟩ <;> rw [← hm]

/-- C3 (amended): with room in the queue, a successful create_task writes the
created task to the store, refreshes its cache entry (version 1, status
Pending, stamped now) and appends one CreateTask operation; a successful
update_task does the same with an UpdateTask operation; delete_task, when the
store reports a row deleted, removes the row and appends one DeleteTask
operation but leaves the Local Cache entirely untouched. -/
theorem mutating_entry_points_effects (m : SyncManager) (t : Task) (task_id : Int) (now : Nat)
    (hroom : m.queue.length < m.max_operations) :
    ((m.create_task t now).1.store.tasks m.store.next_id = some (m.create_task t now).2 ∧
      (m.create_task t now).1.cacheTasks m.store.next_id =
        some { task := (m.create_task t now).2, last_modified := now,
               sync_status := SyncStatus.pending, version := 1 } ∧
      (m.create_task t now).1.queue =
        m.queue ++ [SyncOperation.createTask (m.create_task t now).2 now]) ∧
    (∀ m' u, m.update_task t now = Except.ok (m', u) →
      m'.cacheTasks (u.id.getD 0) =
        some { task := u, last_modified := now, sync_status := SyncStatus.pending,
               version := 1 } ∧
      m'.queue = m.queue ++ [SyncOperation.updateTask u now] ∧
      ∀ i old, t.id = some i → m.store.tasks i = some old →
        m'.store.tasks i = some { u with entry_date := old.entry_date, uuid := old.uuid }) ∧
    ((m.delete_task task_id now).2 = true →
      (m.delete_task task_id now).1.store.tasks task_id = none ∧
      (m.delete_task task_id now).1.queue =
        m.queue ++ [SyncOperation.deleteTask task_id now] ∧
      (m.delete_task task_id now).1.cacheTasks = m.cacheTasks) := by
  have henq : ∀ op, OfflineQueue.enqueue m.max_operations m.queue op = m.queue ++ [op] := by
    intro op
    simp [OfflineQueue.enqueue]
    omega
  refine ⟨⟨?_, ?_, ?_⟩, fun m' u h => ?_, fun hdel => ?_⟩
  · simp [SyncManager.create_task, Store.create_task]
  · simp [SyncManager.create_task, Store.create_task, LocalCache.cache_task]
  · simp [SyncManager.create_task, Store.create_task, henq]
  · obtain ⟨hu, hcache, hqueue, hex⟩ := SyncManager_update_task_ok m t now m' u h
    obtain ⟨i, hti, hstore⟩ := hex
    refine ⟨?_, ?_, ?_⟩
    · rw [hcache]
      simp [LocalCache.cache_task]
    · rw [hqueue, henq]
    · intro j old htj hold
      have hsome : some j = some i := by rw [← htj, hti]
      injection hsome with hji
      subst hji
      rw [hstore]
      simp [hold]
  · by_cases hp : (m.store.tasks task_id).isSome
    · have hres : m.delete_task task_id now =
          ({ m with
              store := { m.store with
                tasks := fun k => if k = task_id then none else m.store.tasks k },
              queue := OfflineQueue.enqueue m.max_operations m.queue
                (SyncOperation.deleteTask task_id now) }, true) := by
        simp [SyncManager.delete_task, Store.delete_task, hp]
      rw [hres]
      exact ⟨by simp, by simpa using henq (SyncOperation.deleteTask task_id now), rfl⟩
    · have hres : (m.delete_task task_id now).2 = false := by
        simp [SyncManager.delete_task, Store.delete_task, hp]
      rw [hres] at hdel
      simp at hdel

/-- C3 witness: the three entry points exercised on a concrete manager. -/
theorem mutating_entry_points_effects_witness :
    ((syncM0.create_task sampleTask 5).1.store.tasks syncM0.store.next_id =
        some (syncM0.create_task sampleTask 5).2 ∧
      (syncM0.create_task sampleTask 5).1.cacheTasks syncM0.store.next_id =
        some { task := (syncM0.create_task sampleTask 5).2, last_modified := 5,
               sync_status := SyncStatus.pending, version := 1 } ∧
      (syncM0.create_task sampleTask 5).1.queue =
        syncM0.queue ++ [SyncOperation.createTask (syncM0.create_task sampleTask 5).2 5]) ∧
    (∀ m' u, syncM0.update_task sampleTask 5 = Except.ok (m', u) →
      m'.cacheTasks (u.id.getD 0) =
        some { task := u, last_modified := 5, sync_status := SyncStatus.pending,
               version := 1 } ∧
      m'.queue = syncM0.queue ++ [SyncOperation.updateTask u 5] ∧
      ∀ i old, sampleTask.id = some i → syncM0.store.tasks i = some old →
        m'.store.tasks i = some { u with entry_date := old.entry_date, uuid := old.uuid }) ∧
    ((syncM0.delete_task 1 5).2 = true →
      (syncM0.delete_task 1 5).1.store.tasks 1 = none ∧
      (syncM0.delete_task 1 5).1.queue = syncM0.queue ++ [SyncOperation.deleteTask 1 5] ∧
      (syncM0.delete_task 1 5).1.cacheTasks = syncM0.cacheTasks) :=
  mutating_entry_points_effects syncM0 sampleTask 1 5 (by decide)

/-- C3 counterexample: delete_task succeeds (the store reports the row
deleted) yet the cached entry for the deleted task is exactly the stale
pre-call entry: not refreshed, its stamp and status untouched. -/
theorem delete_task_cache_not_refreshed :
    (syncMStale.delete_task 1 9).2 = true ∧
    (syncMStale.delete_task 1 9).1.cacheTasks 1 = some staleEntry ∧
    staleEntry.last_modified ≠ 9 ∧
    staleEntry.sync_status ≠ SyncStatus.pending :=
  ⟨rfl, rfl, by decide, by decide⟩

/-- C8 (amended): every re-cache performed by SyncManager::update_task stores
the fixed version 1, whatever was cached before: the version counter of a
repeatedly mutated task stays constant at 1 instead of strictly increasing. -/
theorem update_task_recache_version_one (m : SyncManager) (t : Task) (now : Nat)
    (m' : SyncManager) (u : Task)
    (h : m.update_task t now = Except.ok (m', u)) :
    m'.cacheTasks (u.id.getD 0) =
      some { task := u, last_modified := now, sync_status := SyncStatus.pending,
             version := 1 } := by
  obtain ⟨hu, hcache, hqueue, hex⟩ := SyncManager_update_task_ok m t now m' u h
  rw [hcache]
  simp [LocalCache.cache_task]

/-- C8 witness: the hypothesis discharged on a concrete successful update. -/
theorem update_task_recache_version_one_witness :
    updRes.1.cacheTasks (updRes.2.id.getD 0) =
      some { task := updRes.2, last_modified := 5, sync_status := SyncStatus.pending,
             version := 1 } :=
  update_task_recache_version_one syncM0 sampleTask 5 updRes.1 updRes.2 rfl

/-- C8 counterexample: two successive successful update_task calls through the
manager cache version 1 both times; the version stored for the second
mutation is not strictly greater than the version stored before it. -/
theorem cached_version_not_increasing :
    (SyncManager.update_task syncM0 sampleTask 5).isOk = true ∧
    (SyncManager.update_task (runUpdate syncM0 sampleTask 5) sampleTask 6).isOk = true ∧
    ((runUpdate syncM0 sampleTask 5).cacheTasks 1).map CachedTask.version = some 1 ∧
    ((runUpdate (runUpdate syncM0 sampleTask 5) sampleTask 6).cacheTasks 1).map
      CachedTask.version = some 1 ∧
    ¬ (1 : Nat) > 1 :=
  ⟨rfl, rfl, rfl, rfl, by omega⟩

/-- Sorting the index range descending (as remove_operations does before
erasing) yields the reversed range. -/
theorem mergeSort_desc_range (n : Nat) :
    (List.range n).mergeSort (fun a b => decide (b ≤ a)) = (List.range n).reverse := by
  haveI : IsAntisymm Nat (fun a b : Nat => b ≤ a) := ⟨fun a b h1 h2 => le_antisymm h2 h1⟩
  have hperm : List.Perm ((List.range n).mergeSort (fun a b => decide (b ≤ a)))
      ((List.range n).reverse) :=
    (List.mergeSort_perm (List.range n) _).trans (List.reverse_perm (List.range n)).symm
  have hs1 : List.Sorted (fun a b : Nat => b ≤ a)
      ((List.range n).mergeSort (fun a b => decide (b ≤ a))) := by
    have h := @List.sorted_mergeSort Nat (fun a b => decide (b ≤ a))
      (fun a b c h1 h2 => by
        simp only [decide_eq_true_eq] at *
        omega)
      (fun a b => by simpa using Nat.le_total b a)
      (List.range n)
    exact List.Pairwise.imp (fun hab => by simpa using hab) h
  have hs2 : List.Sorted (fun a b : Nat => b ≤ a) ((List.range n).reverse) := by
    rw [List.Sorted, List.pairwise_reverse]
    exact (List.pairwise_lt_range n).imp Nat.le_of_lt
  exact List.eq_of_perm_of_sorted hperm hs1 hs2

/-- Erasing the indices of the full reversed range from a list of matching
length, highest index first, empties the list. -/
theorem foldl_eraseIdx_range_rev :
    ∀ (n : Nat) (l : List SyncOperation), l.length = n →
      ((List.range n).reverse).foldl
        (fun acc i => if i < acc.length then acc.eraseIdx i else acc) l = [] := by
  intro n
  induction n with
  | zero =>
    intro l h
    simp [List.length_eq_zero.mp h]
  | succ k ih =>
    intro l h
    rw [show (List.range (k+1)).reverse = k :: (List.range k).reverse by simp [List.range_succ]]
    simp only [List.foldl_cons]
    have hk : k < l.length := by omega
    rw [if_pos hk, show l.eraseIdx k = l.dropLast from Eq.symm (List.dropLast_eq_eraseIdx (by omega))]
    exact ih l.dropLast (by simp [List.length_dropLast]; omega)

/-- Removing the complete index range of the queue snapshot (what sync does)
empties the queue. -/
theorem remove_operations_range (l : List SyncOperation) :
    OfflineQueue.remove_operations l (List.range l.length) = [] := by
  unfold OfflineQueue.remove_operations
  rw [mergeSort_desc_range]
  exact foldl_eraseIdx_range_rev l.length l rfl

/-- LocalCache::update_task_sync_status with status Completed leaves every
index that already satisfies it-is-Completed-if-present in that state. -/
theorem update_status_preserves (c : Int → Option CachedTask) (id i : Int) (now : Nat)
    (hc : ∀ ct, c i = some ct → ct.sync_status = SyncStatus.completed) :
    ∀ ct, (LocalCache.update_task_sync_status c id SyncStatus.completed now) i = some ct →
      ct.sync_status = SyncStatus.completed := by
  intro ct hct
  by_cases hk : i = id
  · subst hk
    simp only [LocalCache.update_task_sync_status, if_pos rfl] at hct
    cases hcid : c i with
    | none => rw [hcid] at hct; simp at hct
    | some ct0 =>
      rw [hcid] at hct
      simp at hct
      subst hct
      rfl
  · simp only [LocalCache.update_task_sync_status, if_neg hk] at hct
    exact hc ct hct

/-- LocalCache::update_task_sync_status with status Completed establishes
it-is-Completed-if-present at the updated index. -/
theorem update_status_sets (c : Int → Option CachedTask) (id : Int) (now : Nat) :
    ∀ ct, (LocalCache.update_task_sync_status c id SyncStatus.completed now) id = some ct →
      ct.sync_status = SyncStatus.completed := by
  intro ct hct
  simp only [LocalCache.update_task_sync_status, if_pos rfl] at hct
  cases hcid : c id with
  | none => rw [hcid] at hct; simp at hct
  | some ct0 =>
    rw [hcid] at hct
    simp at hct
    subst hct
    rfl

/-- One sync step preserves it-is-Completed-if-present at any index. -/
theorem syncStep_preserves (now : Nat) (i : Int) (c : Int → Option CachedTask)
    (op : SyncOperation)
    (hc : ∀ ct, c i = some ct → ct.sync_status = SyncStatus.completed) :
    ∀ ct, (syncStep now c op) i = some ct → ct.sync_status = SyncStatus.completed := by
  cases op with
  | createTask t ts => exact update_status_preserves c (t.id.getD 0) i now hc
  | updateTask t ts => exact update_status_preserves c (t.id.getD 0) i now hc
  | deleteTask j ts => exact update_status_preserves c j i now hc
  | createDocument d ts => exact hc
  | updateDocument d ts => exact hc
  | deleteDocument j ts => exact hc

/-- Folding sync steps preserves it-is-Completed-if-present at any index. -/
theorem foldl_syncStep_preserves (now : Nat) (i : Int) :
    ∀ (ops : List SyncOperation) (c : Int → Option CachedTask),
      (∀ ct, c i = some ct → ct.sync_status = SyncStatus.completed) →
      ∀ ct, (ops.foldl (syncStep now) c) i = some ct →
        ct.sync_status = SyncStatus.completed := by
  intro ops
  induction ops with
  | nil => intro c hc; exact hc
  | cons a as ih =>
    intro c hc
    simp only [List.foldl_cons]
    exact ih (syncStep now c a) (syncStep_preserves now i c a hc)

/-- After folding the sync steps of a snapshot, the cache entry named by any
task operation of the snapshot, when present, carries status Completed. -/
theorem foldl_syncStep_marks (now : Nat) :
    ∀ (ops : List SyncOperation) (c : Int → Option CachedTask) (op : SyncOperation),
      op ∈ ops → op.isTaskOp = true →
      ∀ ct, (ops.foldl (syncStep now) c) op.namedTaskId = some ct →
        ct.sync_status = SyncStatus.completed := by
  intro ops
  induction ops with
  | nil => intro c op h; exact absurd h (List.not_mem_nil op)
  | cons a as ih =>
    intro c op hmem htask
    rcases List.mem_cons.mp hmem with heq | hmem'
    · subst heq
      simp only [List.foldl_cons]
      refine foldl_syncStep_preserves now op.namedTaskId as (syncStep now c op) ?_
      cases op with
      | createTask t ts => exact update_status_sets c (t.id.getD 0) now
      | updateTask t ts => exact update_status_sets c (t.id.getD 0) now
      | deleteTask j ts => exact update_status_sets c j now
      | createDocument d ts => simp [SyncOperation.isTaskOp] at htask
      | updateDocument d ts => simp [SyncOperation.isTaskOp] at htask
      | deleteDocument j ts => simp [SyncOperation.isTaskOp] at htask
    · simp only [List.foldl_cons]
      exact ih (syncStep now c a) op hmem' htask

/-- C4: when the offline queue holds only task operations, sync() empties it
(has_pending_operations is false afterwards) and the cache entry named by
every processed operation, when present, carries sync status Completed. -/
theorem sync_drains_queue_and_completes_cache (m : SyncManager) (now : Nat)
    (h : ∀ op ∈ m.queue, op.isTaskOp = true) :
    (m.sync now).has_pending_operations = false ∧
    (∀ op ∈ m.queue, ∀ ct, (m.sync now).cacheTasks op.namedTaskId = some ct →
      ct.sync_status = SyncStatus.completed) := by
  by_cases hq : m.queue.isEmpty
  · have hnil : m.queue = [] := List.isEmpty_iff.mp hq
    constructor
    · simp [SyncManager.sync, hq, SyncManager.has_pending_operations, hnil]
    · intro op hop
      rw [hnil] at hop
      exact absurd hop (List.not_mem_nil op)
  · have hsync : m.sync now =
        { m with
            last_sync := some now,
            cacheTasks := m.queue.foldl (syncStep now) m.cacheTasks,
            queue := OfflineQueue.remove_operations m.queue (List.range m.queue.length) } := by
      simp [SyncManager.sync, hq]
    constructor
    · rw [hsync]
      simp [SyncManager.has_pending_operations, remove_operations_range]
    · intro op hop ct hct
      rw [hsync] at hct
      exact foldl_syncStep_marks now m.queue m.cacheTasks op hop (h op hop) ct hct

/-- C4 witness: the hypothesis discharged on a concrete queue of one task
operation. -/
theorem sync_drains_queue_and_completes_cache_witness :
    (syncMPending.sync 9).has_pending_operations = false ∧
    (∀ op ∈ syncMPending.queue, ∀ ct,
      (syncMPending.sync 9).cacheTasks op.namedTaskId = some ct →
      ct.sync_status = SyncStatus.completed) :=
  sync_drains_queue_and_completes_cache syncMPending 9 (by decide)

end Edda
